import Mathlib

/-!
Verification of the mkv_player repository (src/mkv_player.py).

The development shallowly embeds the subtitle parser (parse_timecode, parse_srt),
the cue lookup (find_active_cue), the caption renderer (overlay_subtitle) and the
per-iteration behaviour of the playback loop in main.  Python strings are modelled
as Lean strings (lists of characters), SRT times as exact rationals (the source
uses floats; every value the claims mention is an exact decimal, so rationals are
the faithful idealisation of the arithmetic hours*3600 + minutes*60 + seconds +
ms/1000), frames as total pixel functions, and the OpenCV drawing calls as pure
frame transformers parameterised by a font-metric / glyph library (an external
collaborator in the spec's terms).
-/

namespace MkvPlayer

/-! ## Python string primitives used by the source -/

/-- Characters removed by the Python str.strip() used at src/mkv_player.py lines
99, 103, 108 and 112 (ASCII whitespace; the unicode spaces Python also strips do
not occur in subtitle timing lines). -/
def isPySpace (c : Char) : Bool :=
  c = ' ' || c = '\t' || c = '\n' || c = '\r' || c = '\x0b' || c = '\x0c'

/-- Python str.strip(): drop leading and trailing whitespace. -/
def pyStrip (s : List Char) : List Char :=
  ((s.dropWhile isPySpace).reverse.dropWhile isPySpace).reverse

/-- Python s.rstrip(chr 13) as used at src/mkv_player.py line 122: drop every
trailing carriage-return character. -/
def rstripCR (s : String) : String :=
  ⟨(s.data.reverse.dropWhile (fun c => c = '\r')).reverse⟩

/-- Python str.split(sep) for a one-character separator: split at every
occurrence, keeping empty pieces (so a string with no separator yields a
singleton list). Used for the comma and colon splits in parse_timecode
(src/mkv_player.py lines 75-76). -/
def splitOnChar (sep : Char) : List Char → List (List Char)
  | [] => [[]]
  | c :: rest =>
    if c = sep then [] :: splitOnChar sep rest
    else
      match splitOnChar sep rest with
      | [] => [[c]]
      | p :: ps => (c :: p) :: ps

/-- Python timing.split(two hyphens and a greater-than sign) at src/mkv_player.py
line 112: split at each leftmost non-overlapping occurrence of the arrow
separator.  A string not containing the separator yields a singleton list, which
is exactly the case the source excludes beforehand with its containment test at
line 110. -/
def splitArrow : List Char → List (List Char)
  | '-' :: '-' :: '>' :: rest => [] :: splitArrow rest
  | c :: rest =>
    match splitArrow rest with
    | [] => [[c]]
    | p :: ps => (c :: p) :: ps
  | [] => [[]]

/-- Python str.isdigit() on ASCII input: nonempty and all characters are decimal
digits (src/mkv_player.py line 103). -/
def pyIsDigit (s : List Char) : Bool :=
  !s.isEmpty && s.all Char.isDigit

/-- Value of a list of decimal digits. -/
def digitsVal (s : List Char) : Nat :=
  s.foldl (fun a c => a * 10 + (c.toNat - 48)) 0

/-- Python int(str): strip whitespace, allow an optional sign, then require a
nonempty run of decimal digits (src/mkv_player.py lines 76-77).  Returns none
where Python raises ValueError. -/
def pyInt (s : List Char) : Option ℤ :=
  match pyStrip s with
  | '-' :: ds => if pyIsDigit ds then some (-(digitsVal ds : ℤ)) else none
  | '+' :: ds => if pyIsDigit ds then some (digitsVal ds : ℤ) else none
  | ds => if pyIsDigit ds then some (digitsVal ds : ℤ) else none

/-! ## parse_timecode (src/mkv_player.py lines 72-80) -/

/-- Body of parse_timecode on the character list of the input string: split on
the comma into exactly two pieces, split the first piece on colons into exactly
three integers, convert the remainder to an integer, and combine as
hours*3600 + minutes*60 + seconds + ms/1000.  Any shape or int() failure raises
ValueError in the source (all raised inside the try block at lines 74-80);
the embedding returns none for every such failure. -/
def parse_timecodeL (time_str : List Char) : Option ℚ :=
  match splitOnChar ',' time_str with
  | [hms, ms] =>
    match (splitOnChar ':' hms).map pyInt with
    | [some hours, some minutes, some seconds] =>
      match pyInt ms with
      | some msv => some (((hours * 3600 + minutes * 60 + seconds : ℤ) : ℚ) + (msv : ℚ) / 1000)
      | none => none
    | _ => none
  | _ => none

/-- parse_timecode on a Lean string. -/
def parse_timecode (time_str : String) : Option ℚ :=
  parse_timecodeL time_str.data

/-! ## parse_srt (src/mkv_player.py lines 83-128) -/

/-- One subtitle cue: the (start_time, end_time, lines) tuple built at
src/mkv_player.py line 124. -/
structure Cue where
  start_time : ℚ
  end_time : ℚ
  lines : List String
deriving DecidableEq

/-- Result of running parse_srt on file content: either the cue list, or the
uncaught ValueError that escapes when the unpacking at src/mkv_player.py line
112 receives more than two pieces (a timing line containing the arrow separator
twice); that line sits outside the try block at lines 113-118. -/
inductive ParseOutcome where
  | ok (cues : List Cue) : ParseOutcome
  | valueError : ParseOutcome
deriving DecidableEq

/-- Control position of the while loop at src/mkv_player.py lines 97-127.
top: at the head of the loop (lines 97-104), where blank lines are skipped and a
digit-only index line moves the scan to the timing position.
timing: an index line was just consumed, so the next line is read as the timing
line without further blank or digit checks (lines 106-108).
collect: inside the text-collection loop for a cue whose timecodes parsed
(lines 119-123), carrying the pending start time, end time and collected lines. -/
inductive SrtMode where
  | top : SrtMode
  | timing : SrtMode
  | collect (start_time end_time : ℚ) (acc : List String) : SrtMode

/-- The while loop of parse_srt as a single forward pass over the remaining
lines plus the control position.  Each step consumes the head line, so the
recursion is structural.  The timing-line handling (source lines 108-118)
appears twice: once when reached from the loop head with no index line, and once
after an index line was skipped; both read one line and proceed identically.
On end of input: in top mode the loop exits with the cues collected so far; in
timing mode the bounds check at line 106 breaks out of the loop; in collect mode
the inner while at line 121 exits, the cue is appended (line 124) and the outer
loop then exits.  A blank line in collect mode ends the cue (line 121), appends
it, and the blank-run skip at lines 126-127 together with the blank skip at the
loop head is reproduced by returning to top mode. -/
def parse_srt_lines : List String → SrtMode → ParseOutcome
  | [], .top => .ok []
  | [], .timing => .ok []
  | [], .collect st en acc => .ok [⟨st, en, acc⟩]
  | l :: rest, .top =>
    if pyStrip l.data = [] then parse_srt_lines rest .top
    else if pyIsDigit (pyStrip l.data) then parse_srt_lines rest .timing
    else
      match splitArrow (pyStrip l.data) with
      | [_] => parse_srt_lines rest .top
      | [a, b] =>
        match parse_timecodeL (pyStrip a), parse_timecodeL (pyStrip b) with
        | some st, some en => parse_srt_lines rest (.collect st en [])
        | _, _ => parse_srt_lines rest .top
      | _ => .valueError
  | l :: rest, .timing =>
    match splitArrow (pyStrip l.data) with
    | [_] => parse_srt_lines rest .top
    | [a, b] =>
      match parse_timecodeL (pyStrip a), parse_timecodeL (pyStrip b) with
      | some st, some en => parse_srt_lines rest (.collect st en [])
      | _, _ => parse_srt_lines rest .top
    | _ => .valueError
  | l :: rest, .collect st en acc =>
    if pyStrip l.data = [] then
      match parse_srt_lines rest .top with
      | .ok cues => .ok (⟨st, en, acc⟩ :: cues)
      | .valueError => .valueError
    else parse_srt_lines rest (.collect st en (acc ++ [rstripCR l]))

/-- parse_srt (src/mkv_player.py lines 83-128).  The input is none when the
path does not exist (the os.path.exists check at lines 90-92 prints a message
and returns the empty cue list), and otherwise the splitlines() decomposition of
the file content (line 94). -/
def parse_srt (file : Option (List String)) : ParseOutcome :=
  match file with
  | none => .ok []
  | some content => parse_srt_lines content .top

/-! ## find_active_cue (src/mkv_player.py lines 131-137) -/

/-- Linear scan for the first cue whose closed interval contains the current
time; returns its lines, or none when no cue matches. -/
def find_active_cue (cues : List Cue) (current_time : ℚ) : Option (List String) :=
  match cues with
  | [] => none
  | c :: rest =>
    if c.start_time ≤ current_time ∧ current_time ≤ c.end_time then some c.lines
    else find_active_cue rest current_time

/-- Cue lookup as the spec words it (spec.md §4.1): the text lines of the first
cue in collection order whose closed interval contains t, via List.find?. -/
def find_active_cue_spec (cues : List Cue) (t : ℚ) : Option (List String) :=
  (cues.find? fun c => decide (c.start_time ≤ t ∧ t ≤ c.end_time)).map Cue.lines

/-! ## overlay_subtitle (src/mkv_player.py lines 140-187)

Frames are BGR pixel buffers; a pixel is modelled as a triple of rationals (the
source holds uint8 channels, and the spec fixes only the compositing formula,
destination = 0.5 * black + 0.5 * original, as the portable contract, declaring
exact quantised pixel values a non-portable font-rendering detail, so exact
rational channel arithmetic is the faithful idealisation).  A frame is its
height, width and a total pixel function; cv2 always writes into a destination
buffer distinct from the overlay source here, so the drawing primitives are
pure frame transformers.  The font measurement cv2.getTextSize and the glyph
rasterisation cv2.putText are external collaborators: they are supplied as an
abstract TextLib whose mask says which pixels a putText call touches and whose
ink says what it writes there (possibly blending with the old pixel, as
anti-aliasing does). -/

/-- One BGR pixel with exact rational channels. -/
abbrev Pixel := ℚ × ℚ × ℚ

/-- Channelwise scalar multiple. -/
def pxSmul (a : ℚ) (p : Pixel) : Pixel := (a * p.1, a * p.2.1, a * p.2.2)

/-- Channelwise sum. -/
def pxAdd (p q : Pixel) : Pixel := (p.1 + q.1, p.2.1 + q.2.1, p.2.2 + q.2.2)

/-- The black fill (0, 0, 0) passed to cv2.rectangle at src/mkv_player.py
line 176. -/
def blackPixel : Pixel := (0, 0, 0)

/-- A video frame: height and width (result.shape at src/mkv_player.py line
149) and the pixel at each coordinate. -/
structure Frame where
  h : Nat
  w : Nat
  pix : Nat → Nat → Pixel

/-- The external text collaborator: getTextSize returns the (width, height) of
a rendered line (src/mkv_player.py line 160 keeps component 0 of the cv2
result); putTextMask tells which pixels a putText call at a given origin
touches, and putTextInk what it writes there given the old pixel. -/
structure TextLib where
  getTextSize : String → Nat × Nat
  putTextMask : String → ℤ × ℤ → Nat → Nat → Bool
  putTextInk : String → ℤ × ℤ → Nat → Nat → Pixel → Pixel

/-- cv2.putText (src/mkv_player.py line 185) as a pure transformer: pixels in
the call's mask take the ink value, all others are unchanged; the buffer
dimensions are untouched. -/
def putTextM (lib : TextLib) (f : Frame) (s : String) (org : ℤ × ℤ) : Frame :=
  ⟨f.h, f.w, fun x y =>
    if lib.putTextMask s org x y then lib.putTextInk s org x y (f.pix x y)
    else f.pix x y⟩

/-- Membership of an (x, y) point in the closed integer rectangle spanned by
the two corners given to cv2.rectangle. -/
def inRectB (x1 y1 x2 y2 x y : ℤ) : Bool :=
  decide (x1 ≤ x ∧ x ≤ x2 ∧ y1 ≤ y ∧ y ≤ y2)

/-- cv2.rectangle with thickness -1 (src/mkv_player.py line 176): fill every
pixel inside the closed rectangle with the colour.  cv2 clips the rectangle to
the image; the model's pixel function is total, so clipping is implicit. -/
def rectFill (f : Frame) (x1 y1 x2 y2 : ℤ) (c : Pixel) : Frame :=
  ⟨f.h, f.w, fun x y =>
    if inRectB x1 y1 x2 y2 (x : ℤ) (y : ℤ) then c else f.pix x y⟩

/-- cv2.addWeighted(a, alpha, b, beta, gamma, dst) with dst = b
(src/mkv_player.py line 178): every destination pixel becomes
alpha * a + beta * b + gamma, channelwise. -/
def addWeighted (a : Frame) (alpha : ℚ) (b : Frame) (beta : ℚ) (gamma : ℚ) : Frame :=
  ⟨b.h, b.w, fun x y =>
    pxAdd (pxAdd (pxSmul alpha (a.pix x y)) (pxSmul beta (b.pix x y))) (gamma, gamma, gamma)⟩

/-- Sizes of the rendered lines (src/mkv_player.py line 160). -/
def text_sizes (lib : TextLib) (lines : List String) : List (Nat × Nat) :=
  lines.map lib.getTextSize

/-- Maximum of a list of integers in the way Python max evaluates a nonempty
sequence: fold max over the tail starting from the head.  The empty case never
arises in the source (Python max would raise there) and returns 0. -/
def maxList (l : List ℤ) : ℤ :=
  match l with
  | [] => 0
  | v :: vs => vs.foldl max v

/-- max_width (src/mkv_player.py line 161): the widest rendered line. -/
def max_width (lib : TextLib) (lines : List String) : ℤ :=
  maxList ((text_sizes lib lines).map fun s => (s.1 : ℤ))

/-- total_text_height (src/mkv_player.py line 162): sum of the line heights
plus line_spacing = 10 pixels between consecutive lines. -/
def total_text_height (lib : TextLib) (lines : List String) : ℤ :=
  ((text_sizes lib lines).map fun s => (s.2 : ℤ)).sum + ((lines.length : ℤ) - 1) * 10

/-- y_start (src/mkv_player.py line 166): top of the text block, a
margin_bottom = 20 pixel margin above the bottom edge. -/
def y_start (lib : TextLib) (h : Nat) (lines : List String) : ℤ :=
  (h : ℤ) - 20 - total_text_height lib lines

/-- x_start (src/mkv_player.py line 167): horizontal centring of the block,
with Python floor division. -/
def x_start (lib : TextLib) (w : Nat) (lines : List String) : ℤ :=
  ((w : ℤ) - max_width lib lines).fdiv 2

/-- Left edge of the backing rectangle (src/mkv_player.py line 171). -/
def rect_x1 (lib : TextLib) (w : Nat) (lines : List String) : ℤ :=
  x_start lib w lines - 10

/-- Top edge of the backing rectangle (src/mkv_player.py line 172). -/
def rect_y1 (lib : TextLib) (h : Nat) (lines : List String) : ℤ :=
  y_start lib h lines - 5

/-- Right edge of the backing rectangle (src/mkv_player.py line 173). -/
def rect_x2 (lib : TextLib) (w : Nat) (lines : List String) : ℤ :=
  x_start lib w lines + max_width lib lines + 10

/-- Bottom edge of the backing rectangle (src/mkv_player.py line 174). -/
def rect_y2 (lib : TextLib) (h : Nat) (lines : List String) : ℤ :=
  y_start lib h lines + total_text_height lib lines + 5

/-- The intermediate frame of src/mkv_player.py lines 175-178: a copy of the
frame with the backing rectangle filled black, blended onto the frame at
alpha = 0.5 (so cv2.addWeighted receives alpha and 1 - alpha = 0.5 and
gamma = 0). -/
def blended (lib : TextLib) (f : Frame) (lines : List String) : Frame :=
  addWeighted
    (rectFill f (rect_x1 lib f.w lines) (rect_y1 lib f.h lines)
      (rect_x2 lib f.w lines) (rect_y2 lib f.h lines) blackPixel)
    (1 / 2) f (1 / 2) 0

/-- The origin of each putText call of the loop at src/mkv_player.py lines
181-186, paired with its line: each line is centred independently with floor
division, the baseline sits line_height below the running y, and y advances by
line_height + line_spacing. -/
def textOrgs (lib : TextLib) (w : Nat) : List String → ℤ → List (String × (ℤ × ℤ))
  | [], _ => []
  | line :: rest, y =>
    let sz := lib.getTextSize line
    (line, (((w : ℤ) - (sz.1 : ℤ)).fdiv 2, y + (sz.2 : ℤ))) ::
      textOrgs lib w rest (y + (sz.2 : ℤ) + 10)

/-- overlay_subtitle (src/mkv_player.py lines 140-187).  The source first
copies the frame (line 148, identity in the pure model) and returns the copy
unchanged when the line list is empty (lines 150-151); otherwise it draws the
translucent rectangle producing the intermediate frame and then draws each
line at its computed origin. -/
def overlay_subtitle (lib : TextLib) (frame : Frame) (lines : List String) : Frame :=
  if lines.isEmpty then frame
  else
    (textOrgs lib frame.w lines (y_start lib frame.h lines)).foldl
      (fun g p => putTextM lib g p.1 p.2) (blended lib frame lines)

/-- The pixels the captioning pass may touch: the backing rectangle plus the
pixels in the mask of some putText call. -/
def captionRegion (lib : TextLib) (f : Frame) (lines : List String) (x y : Nat) : Bool :=
  inRectB (rect_x1 lib f.w lines) (rect_y1 lib f.h lines) (rect_x2 lib f.w lines)
      (rect_y2 lib f.h lines) (x : ℤ) (y : ℤ) ||
    (textOrgs lib f.w lines (y_start lib f.h lines)).any fun p =>
      lib.putTextMask p.1 p.2 x y

/-! ## The playback loop of main (src/mkv_player.py lines 242-277)

One iteration of the while loop, as a function of the loop state (paused flag
and retained current frame), the decoder's answer to cap.read() (none when the
stream ends), the reported playback position in milliseconds, and the masked
key code returned by cv2.waitKey. -/

/-- The mutable loop state: paused (line 235) and current_frame (line 236). -/
structure LoopState where
  paused : Bool
  current_frame : Option Frame

/-- Observable effects of one loop iteration: the frame shown via cv2.imshow,
the frame handed to cv2.imwrite when a screenshot is taken, and the state for
the next iteration (none when the loop breaks). -/
structure StepOutput where
  displayed : Option Frame
  screenshot : Option Frame
  nextState : Option LoopState

/-- The display frame for the iteration (src/mkv_player.py lines 252-259): a
copy of the current frame, overlaid with the active cue's lines when the cue
collection is nonempty, a cue is active, and its line list is truthy (a cue
with an empty line list is falsy in Python and is not drawn). -/
def displayFor (cues : List Cue) (lib : TextLib) (cur : Frame) (t : ℚ) : Frame :=
  if cues ≠ [] then
    match find_active_cue cues t with
    | some ls => if ls ≠ [] then overlay_subtitle lib cur ls else cur
    | none => cur
  else cur

/-- The frame retained in current_frame once the read phase of the iteration
is over: when paused the previous frame is kept (lines 243-249), otherwise the
frame just decoded, none meaning the loop breaks at end of stream. -/
def currentFrameAfterRead (st : LoopState) (readResult : Option Frame) : Option Frame :=
  if st.paused then st.current_frame else readResult

/-- One iteration of the playback loop (src/mkv_player.py lines 242-277).
Key codes: q = 113, Escape = 27 quit; space = 32 toggles pause; s = 115 writes
current_frame, the undecorated decoded frame, to the screenshot file (line
275), while the shown frame is the separately built display_frame. -/
def player_step (cues : List Cue) (lib : TextLib) (st : LoopState)
    (readResult : Option Frame) (pos_msec : ℚ) (key : Nat) : StepOutput :=
  let st1 : Option LoopState :=
    if st.paused then some st
    else
      match readResult with
      | none => none
      | some fr => some ⟨st.paused, some fr⟩
  match st1 with
  | none => ⟨none, none, none⟩
  | some s =>
    match s.current_frame with
    | none => ⟨none, none, none⟩
    | some cur =>
      let display_frame := displayFor cues lib cur (pos_msec / 1000)
      if key = 113 ∨ key = 27 then ⟨some display_frame, none, none⟩
      else if key = 32 then ⟨some display_frame, none, some ⟨!s.paused, s.current_frame⟩⟩
      else if key = 115 then ⟨some display_frame, some cur, some s⟩
      else ⟨some display_frame, none, some s⟩

/-! ## Fixtures used by the witness theorems -/

/-- A concrete text collaborator: every line measures 2 by 3 pixels and glyph
rasterisation touches no pixel. -/
def wlib : TextLib :=
  ⟨fun _ => (2, 3), fun _ _ _ _ => false, fun _ _ _ _ p => p⟩

/-- A concrete 100 by 100 frame with constant pixels. -/
def wframe : Frame :=
  ⟨100, 100, fun _ _ => (7, 8, 9)⟩

/-- A concrete cue collection with one cue active over [0, 10]. -/
def wcues : List Cue :=
  [⟨0, 10, ["Hi"]⟩]

/-! ## Helper lemmas -/

/-- The accumulator is a lower bound of a left max-fold. -/
theorem le_foldl_max (vs : List ℤ) (v : ℤ) : v ≤ vs.foldl max v := by
  induction vs generalizing v with
  | nil => exact le_refl v
  | cons a as ih => exact le_trans (le_max_left v a) (ih (max v a))

/-- A left max-fold returns the accumulator or one of the elements. -/
theorem foldl_max_mem (vs : List ℤ) (v : ℤ) : vs.foldl max v ∈ v :: vs := by
  induction vs generalizing v with
  | nil => simp
  | cons u us ih =>
    have h := ih (max v u)
    simp only [List.foldl_cons]
    simp only [List.mem_cons] at h ⊢
    rcases max_choice v u with h1 | h1 <;> rw [h1] at h ⊢ <;> tauto

/-- A left max-fold bounds the accumulator and every element. -/
theorem foldl_max_le (vs : List ℤ) (v : ℤ) : ∀ u ∈ v :: vs, u ≤ vs.foldl max v := by
  induction vs generalizing v with
  | nil =>
    intro u hu
    rw [List.mem_singleton] at hu
    rw [hu, List.foldl_nil]
  | cons a as ih =>
    intro u hu
    simp only [List.mem_cons] at hu
    simp only [List.foldl_cons]
    rcases hu with rfl | rfl | h
    · exact le_trans (le_max_left u a) (le_foldl_max as (max u a))
    · exact le_trans (le_max_right v u) (le_foldl_max as (max v u))
    · exact ih (max v a) u (List.mem_cons_of_mem _ h)

/-- On a nonempty list, maxList returns one of the elements. -/
theorem maxList_mem (l : List ℤ) (hne : l ≠ []) : maxList l ∈ l := by
  cases l with
  | nil => exact absurd rfl hne
  | cons v vs => exact foldl_max_mem vs v

/-- maxList bounds every element of the list. -/
theorem maxList_le (l : List ℤ) : ∀ u ∈ l, u ≤ maxList l := by
  cases l with
  | nil => intro u hu; cases hu
  | cons v vs => exact foldl_max_le vs v

/-- Folding putText calls over a frame keeps the height. -/
theorem foldl_putTextM_h (lib : TextLib) (L : List (String × (ℤ × ℤ))) (f : Frame) :
    (L.foldl (fun g p => putTextM lib g p.1 p.2) f).h = f.h := by
  induction L generalizing f with
  | nil => rfl
  | cons p ps ih => rw [List.foldl_cons, ih]; rfl

/-- Folding putText calls over a frame keeps the width. -/
theorem foldl_putTextM_w (lib : TextLib) (L : List (String × (ℤ × ℤ))) (f : Frame) :
    (L.foldl (fun g p => putTextM lib g p.1 p.2) f).w = f.w := by
  induction L generalizing f with
  | nil => rfl
  | cons p ps ih => rw [List.foldl_cons, ih]; rfl

/-- A pixel in no call's mask is untouched by the sequence of putText calls. -/
theorem foldl_putTextM_pix (lib : TextLib) (x y : Nat) (L : List (String × (ℤ × ℤ)))
    (f : Frame) (hm : ∀ p ∈ L, lib.putTextMask p.1 p.2 x y = false) :
    (L.foldl (fun g p => putTextM lib g p.1 p.2) f).pix x y = f.pix x y := by
  induction L generalizing f with
  | nil => rfl
  | cons p ps ih =>
    rw [List.foldl_cons, ih _ (fun q hq => hm q (List.mem_cons_of_mem _ hq))]
    simp [putTextM, hm p (List.mem_cons_self _ _)]

/-- Blending a pixel with itself at weights one half and one half and zero
offset returns the pixel. -/
theorem half_blend_id (p : Pixel) :
    pxAdd (pxAdd (pxSmul (1 / 2) p) (pxSmul (1 / 2) p)) ((0 : ℚ), (0 : ℚ), (0 : ℚ)) = p := by
  rcases p with ⟨a, b, c⟩
  simp only [pxAdd, pxSmul, Prod.mk.injEq]
  refine ⟨by ring, by ring, by ring⟩

/-- Adding the zero pixel is the identity. -/
theorem pxAdd_zero (p : Pixel) : pxAdd p ((0 : ℚ), (0 : ℚ), (0 : ℚ)) = p := by
  rcases p with ⟨a, b, c⟩
  simp [pxAdd]

/-! ## Claim theorems -/

/-- C1: parsing the known-good block consisting of the timing line
00:00:01,500 --> 00:00:03,000 followed by the text lines Hello and World and a
blank line yields exactly one cue with start_time 1.5, end_time 3 and lines
[Hello, World], with each timecode converted as
hours*3600 + minutes*60 + seconds + milliseconds/1000. -/
theorem parse_known_good_block :
    parse_srt (some ["00:00:01,500 --> 00:00:03,000", "Hello", "World", ""])
      = ParseOutcome.ok [⟨(1.5 : ℚ), (3 : ℚ), ["Hello", "World"]⟩] := by
  have h : parse_srt (some ["00:00:01,500 --> 00:00:03,000", "Hello", "World", ""])
      = ParseOutcome.ok [⟨((0 * 3600 + 0 * 60 + 1 : ℤ) : ℚ) + ((500 : ℤ) : ℚ) / 1000,
          ((0 * 3600 + 0 * 60 + 3 : ℤ) : ℚ) + ((0 : ℤ) : ℚ) / 1000, ["Hello", "World"]⟩] := rfl
  rw [h]
  norm_num

/-- C2: for every cue collection and time, find_active_cue returns the lines of
the first cue in collection order whose closed interval contains the time, and
none when no interval does; in particular with overlapping cues A over [0, 5]
and B over [2, 8] in that order, lookup at 3 returns the lines of A. -/
theorem find_active_cue_first_match :
    (∀ (cues : List Cue) (t : ℚ), find_active_cue cues t = find_active_cue_spec cues t) ∧
      find_active_cue [⟨0, 5, ["A"]⟩, ⟨2, 8, ["B"]⟩] 3 = some ["A"] := by
  constructor
  · intro cues t
    induction cues with
    | nil => rfl
    | cons c rest ih =>
      by_cases h : c.start_time ≤ t ∧ t ≤ c.end_time
      · simp [find_active_cue, find_active_cue_spec, List.find?, h]
      · simp only [find_active_cue, find_active_cue_spec, List.find?, h, if_false,
          decide_eq_true_eq] at ih ⊢
        simp [h, ih, find_active_cue_spec]
  · rfl

/-- C3: the claim that parse_srt never raises fails on the code: on a timing
line containing the arrow separator twice, the unpacking at src/mkv_player.py
line 112 receives three pieces and raises an uncaught ValueError (that line is
outside the try block), which the model reports as valueError. -/
theorem parse_srt_double_arrow_raises :
    parse_srt (some ["00:00:01,000 --> 00:00:02,000 --> 00:00:03,000"])
      = ParseOutcome.valueError := rfl

/-- C4: when the subtitle path does not exist parse_srt returns the empty cue
collection without raising, and every lookup on the empty collection returns
none. -/
theorem missing_subtitle_file :
    parse_srt none = ParseOutcome.ok [] ∧ ∀ t : ℚ, find_active_cue [] t = none :=
  ⟨rfl, fun _ => rfl⟩

/-- C5: for every frame and every text collaborator, overlay_subtitle on an
empty line list returns a frame equal to the input, a plain copy with no
drawing operations and no rectangle. -/
theorem overlay_empty_lines (lib : TextLib) (f : Frame) :
    overlay_subtitle lib f [] = f := rfl

/-- C6: for every frame, text collaborator and nonempty line list, the output
of overlay_subtitle has the input's dimensions and agrees with the input at
every pixel outside the caption region, the backing rectangle together with
the pixels touched by the putText calls; the input frame itself is a pure
value the transformer never writes through. -/
theorem overlay_subtitle_effect (lib : TextLib) (f : Frame) (lines : List String)
    (hne : lines ≠ []) :
    (overlay_subtitle lib f lines).h = f.h ∧ (overlay_subtitle lib f lines).w = f.w ∧
      ∀ x y : Nat, captionRegion lib f lines x y = false →
        (overlay_subtitle lib f lines).pix x y = f.pix x y := by
  have he : lines.isEmpty = false := by
    cases lines with
    | nil => exact absurd rfl hne
    | cons a t => rfl
  refine ⟨?_, ?_, ?_⟩
  · simp only [overlay_subtitle, he, Bool.false_eq_true, if_false]
    rw [foldl_putTextM_h]
    rfl
  · simp only [overlay_subtitle, he, Bool.false_eq_true, if_false]
    rw [foldl_putTextM_w]
    rfl
  · intro x y hreg
    simp only [captionRegion, Bool.or_eq_false_iff] at hreg
    obtain ⟨h1, h2⟩ := hreg
    simp only [List.any_eq_false, Bool.not_eq_true] at h2
    simp only [overlay_subtitle, he, Bool.false_eq_true, if_false]
    rw [foldl_putTextM_pix lib x y _ _ h2]
    simp only [blended, addWeighted, rectFill, h1, Bool.false_eq_true, if_false]
    exact half_blend_id (f.pix x y)

/-- Witness for C6 at a concrete frame, collaborator and line list, checking
the preserved dimension and a pixel outside the caption region. -/
theorem overlay_subtitle_effect_w :
    (["Hi"] : List String) ≠ [] ∧ (overlay_subtitle wlib wframe ["Hi"]).h = wframe.h ∧
      (overlay_subtitle wlib wframe ["Hi"]).pix 0 0 = wframe.pix 0 0 := by
  have h := overlay_subtitle_effect wlib wframe ["Hi"] (by decide)
  exact ⟨by decide, h.1, h.2.2 0 0 (by decide)⟩

/-- C7: on a screenshot request (key s = 115) the frame handed to the
screenshot sink is exactly the undecorated decoded frame retained in
current_frame, while the displayed frame is the separately built display copy
that carries the caption whenever a cue is active. -/
theorem screenshot_uses_raw_frame (cues : List Cue) (lib : TextLib) (st : LoopState)
    (readResult : Option Frame) (pos_msec : ℚ) (key : Nat) (f : Frame)
    (hk : key = 115) (hf : currentFrameAfterRead st readResult = some f) :
    (player_step cues lib st readResult pos_msec key).screenshot = some f ∧
      (player_step cues lib st readResult pos_msec key).displayed
        = some (displayFor cues lib f (pos_msec / 1000)) := by
  subst hk
  cases hp : st.paused with
  | true =>
    simp only [currentFrameAfterRead, hp, if_true] at hf
    simp [player_step, hp, hf]
  | false =>
    simp only [currentFrameAfterRead, hp, Bool.false_eq_true, if_false] at hf
    subst hf
    simp [player_step, hp]

/-- Witness for C7 at a concrete unpaused state with a freshly decoded frame,
an active cue at 3 seconds and the s key. -/
theorem screenshot_uses_raw_frame_w :
    currentFrameAfterRead ⟨false, none⟩ (some wframe) = some wframe ∧
      (player_step wcues wlib ⟨false, none⟩ (some wframe) 3000 115).screenshot
        = some wframe :=
  ⟨rfl,
    (screenshot_uses_raw_frame wcues wlib ⟨false, none⟩ (some wframe) 3000 115 wframe
      rfl rfl).1⟩

/-- C8: for a nonempty line list the caption block width is the maximum
rendered line width, the block height is the sum of the line heights plus one
fixed 10-pixel gap per adjacent pair of lines, and inside the backing
rectangle every pixel of the intermediate frame is the half-half composite of
black with the original pixel. -/
theorem caption_block_geometry (lib : TextLib) (f : Frame) (lines : List String)
    (hne : lines ≠ []) :
    max_width lib lines ∈ ((text_sizes lib lines).map fun s => ((s.1 : ℤ))) ∧
      (∀ v ∈ (text_sizes lib lines).map fun s => ((s.1 : ℤ)), v ≤ max_width lib lines) ∧
      total_text_height lib lines
        = ((text_sizes lib lines).map fun s => ((s.2 : ℤ))).sum
            + ((lines.length : ℤ) - 1) * 10 ∧
      ∀ x y : Nat,
        inRectB (rect_x1 lib f.w lines) (rect_y1 lib f.h lines) (rect_x2 lib f.w lines)
            (rect_y2 lib f.h lines) (x : ℤ) (y : ℤ) = true →
          (blended lib f lines).pix x y
            = pxAdd (pxSmul (1 / 2) blackPixel) (pxSmul (1 / 2) (f.pix x y)) := by
  refine ⟨?_, ?_, rfl, ?_⟩
  · apply maxList_mem
    simp only [ne_eq, List.map_eq_nil_iff, text_sizes]
    exact hne
  · exact maxList_le _
  · intro x y hin
    simp only [blended, addWeighted, rectFill, hin, if_true]
    exact pxAdd_zero _

/-- Witness for C8 at a concrete frame and line list, checking the blend at a
pixel inside the backing rectangle. -/
theorem caption_block_geometry_w :
    inRectB (rect_x1 wlib wframe.w ["Hi"]) (rect_y1 wlib wframe.h ["Hi"])
        (rect_x2 wlib wframe.w ["Hi"]) (rect_y2 wlib wframe.h ["Hi"])
        ((50 : ℕ) : ℤ) ((80 : ℕ) : ℤ) = true ∧
      (blended wlib wframe ["Hi"]).pix 50 80
        = pxAdd (pxSmul (1 / 2) blackPixel) (pxSmul (1 / 2) (wframe.pix 50 80)) :=
  ⟨by decide,
    (caption_block_geometry wlib wframe ["Hi"] (by decide)).2.2.2 50 80 (by decide)⟩

/-- C9: a cue whose start_time strictly exceeds its end_time never matches any
lookup time, so find_active_cue skips it; parse_srt performs no validation and
emits such a cue unchanged. -/
theorem degenerate_cue_skipped :
    (∀ (c : Cue) (rest : List Cue) (t : ℚ), c.end_time < c.start_time →
        find_active_cue (c :: rest) t = find_active_cue rest t) ∧
      parse_srt (some ["00:00:05,000 --> 00:00:01,000", "X"])
        = ParseOutcome.ok [⟨5, 1, ["X"]⟩] := by
  constructor
  · intro c rest t hlt
    have hno : ¬(c.start_time ≤ t ∧ t ≤ c.end_time) := by
      rintro ⟨h1, h2⟩
      exact absurd (le_trans h1 h2) (not_le.mpr hlt)
    simp [find_active_cue, hno]
  · have h : parse_srt (some ["00:00:05,000 --> 00:00:01,000", "X"])
        = ParseOutcome.ok [⟨((0 * 3600 + 0 * 60 + 5 : ℤ) : ℚ) + ((0 : ℤ) : ℚ) / 1000,
            ((0 * 3600 + 0 * 60 + 1 : ℤ) : ℚ) + ((0 : ℤ) : ℚ) / 1000, ["X"]⟩] := rfl
    rw [h]
    norm_num

/-- Witness for C9 at a concrete degenerate cue with interval [5, 1] and
lookup time 3. -/
theorem degenerate_cue_skipped_w :
    (1 : ℚ) < 5 ∧
      find_active_cue [⟨5, 1, ["X"]⟩, ⟨0, 9, ["Y"]⟩] 3 = find_active_cue [⟨0, 9, ["Y"]⟩] 3 :=
  ⟨by norm_num, degenerate_cue_skipped.1 ⟨5, 1, ["X"]⟩ [⟨0, 9, ["Y"]⟩] 3 (by norm_num)⟩

/-- C10: parse_timecode enforces no digit widths: any string splitting on the
comma into two pieces, the first splitting on colons into three integers and
the second converting to an integer, is accepted with the millisecond field
divided by 1000 whatever its digit count; the string 1:2:3,45 yields 3723.045
and a cue with such timecodes is emitted by parse_srt rather than discarded. -/
theorem timecode_shape_not_enforced :
    (∀ (s hms ms a b c : List Char) (A B C D : ℤ),
        splitOnChar ',' s = [hms, ms] →
        splitOnChar ':' hms = [a, b, c] →
        pyInt a = some A → pyInt b = some B → pyInt c = some C → pyInt ms = some D →
        parse_timecodeL s = some (((A * 3600 + B * 60 + C : ℤ) : ℚ) + (D : ℚ) / 1000)) ∧
      parse_timecode "1:2:3,45" = some (3723 + (45 : ℚ) / 1000) ∧
      parse_srt (some ["1:2:3,45 --> 1:2:4,5", "X"])
        = ParseOutcome.ok [⟨3723 + (45 : ℚ) / 1000, 3724 + (5 : ℚ) / 1000, ["X"]⟩] := by
  refine ⟨?_, ?_, ?_⟩
  · intro s hms ms a b c A B C D h1 h2 ha hb hc hd
    simp [parse_timecodeL, h1, h2, ha, hb, hc, hd]
  · have h : parse_timecode "1:2:3,45"
        = some (((1 * 3600 + 2 * 60 + 3 : ℤ) : ℚ) + ((45 : ℤ) : ℚ) / 1000) := rfl
    rw [h]
    norm_num
  · have h : parse_srt (some ["1:2:3,45 --> 1:2:4,5", "X"])
        = ParseOutcome.ok [⟨((1 * 3600 + 2 * 60 + 3 : ℤ) : ℚ) + ((45 : ℤ) : ℚ) / 1000,
            ((1 * 3600 + 2 * 60 + 4 : ℤ) : ℚ) + ((5 : ℤ) : ℚ) / 1000, ["X"]⟩] := rfl
    rw [h]
    norm_num

/-- Witness for C10 at the concrete timecode 1:2:3,45. -/
theorem timecode_shape_not_enforced_w :
    splitOnChar ',' ("1:2:3,45").data = [("1:2:3").data, ("45").data] ∧
      parse_timecodeL ("1:2:3,45").data
        = some ((((1 : ℤ) * 3600 + 2 * 60 + 3 : ℤ) : ℚ) + ((45 : ℤ) : ℚ) / 1000) :=
  ⟨by decide,
    timecode_shape_not_enforced.1 ("1:2:3,45").data ("1:2:3").data ("45").data
      ("1").data ("2").data ("3").data 1 2 3 45 (by decide) (by decide) (by decide)
      (by decide) (by decide) (by decide)⟩

end MkvPlayer
